import Mathlib

/-!
Shallow embedding of the nvme-format-report core (src/state.py, src/plan.py,
src/execute.py) and verification of its specification.

Modelling conventions:
* Python dicts are association lists (`Dict α`) preserving insertion order;
  `dict.update` replaces values of existing keys in place and appends new
  keys at the end, exactly as CPython does.
* JSON-native payload values are the inductive `Val`.
* Machine floats of the source are modelled by exact rationals (`ℚ`);
  Python `int(x)` truncation is `pyInt`, `round(x, 2)` is `round2`
  (round-half-to-even, CPython's rule).
* Subprocess invocations are modelled by their observable outcome
  (`RunOutcome` for the wipe command, `ReadOutcome` for the verification
  read); `datetime.now()` values are threaded as explicit parameters.
* Raised Python exceptions become `Except String`; the message is the
  exception's `str()` (a `KeyError` on key `k` prints as `'k'`).
-/

/-- Association list modelling a Python `dict` (keys in insertion order). -/
abbrev Dict (α : Type) := List (String × α)

namespace Dict

/-- `d.get(k)` / `d[k]` lookup: first binding of `k`. -/
def get? {α : Type} (d : Dict α) (k : String) : Option α :=
  match d with
  | [] => none
  | (k0, v0) :: rest => if k0 = k then some v0 else get? rest k

/-- Setting one key as CPython does: overwrite in place, else append. -/
def setKey {α : Type} (d : Dict α) (k : String) (v : α) : Dict α :=
  match d with
  | [] => [(k, v)]
  | (k0, v0) :: rest =>
    if k0 = k then (k0, v) :: rest else (k0, v0) :: setKey rest k v

/-- `d.update(n)`: fold the new bindings into `d` left to right. -/
def update {α : Type} (d n : Dict α) : Dict α :=
  n.foldl (fun acc kv => setKey acc kv.1 kv.2) d

theorem get?_setKey {α : Type} (d : Dict α) (k k' : String) (v : α) :
    get? (setKey d k v) k' = if k = k' then some v else get? d k' := by
  induction d with
  | nil =>
    by_cases h : k = k' <;> simp [setKey, get?, h]
  | cons hd tl ih =>
    obtain ⟨k0, v0⟩ := hd
    simp only [setKey]
    by_cases h0 : k0 = k
    · subst h0
      by_cases h1 : k0 = k' <;> simp [get?, h1]
    · by_cases h1 : k0 = k'
      · subst h1
        have : ¬ k = k0 := fun h => h0 h.symm
        simp [get?, h0, this]
      · simp [get?, h0, h1, ih]

theorem get?_eq_none_of_not_mem {α : Type} (d : Dict α) (k : String)
    (h : k ∉ d.map Prod.fst) : get? d k = none := by
  induction d with
  | nil => rfl
  | cons hd tl ih =>
    obtain ⟨k0, v0⟩ := hd
    simp only [List.map_cons, List.mem_cons, not_or] at h
    have : ¬ k0 = k := fun e => h.1 e.symm
    simp [get?, this, ih h.2]

/-- Lookup after a `dict.update` whose argument has no duplicate keys:
the new bindings win, everything else falls back to the old dict. -/
theorem get?_update {α : Type} (d n : Dict α) (k : String)
    (hn : (n.map Prod.fst).Nodup) :
    get? (update d n) k =
      match get? n k with
      | some v => some v
      | none => get? d k := by
  induction n generalizing d with
  | nil => rfl
  | cons hd tl ih =>
    obtain ⟨k1, v1⟩ := hd
    simp only [List.map_cons, List.nodup_cons] at hn
    have hupd : update d ((k1, v1) :: tl) = update (setKey d k1 v1) tl := rfl
    rw [hupd, ih _ hn.2]
    by_cases hk : k1 = k
    · subst hk
      have htl : get? tl k1 = none := get?_eq_none_of_not_mem tl k1 hn.1
      simp [get?, htl, get?_setKey]
    · simp [get?, hk, get?_setKey]

end Dict

/-- JSON-native Python values, as held in `StateManager._state` payloads. -/
inductive Val : Type where
  | s (x : String)
  | i (x : Int)
  | q (x : ℚ)
  | b (x : Bool)
  | none_
  | dict (xs : List (String × Val))
  | list (xs : List Val)

namespace Val

/-- Python truthiness of a value (`if not execution_plan: ...`). -/
def falsy : Val → Bool
  | .s x => x = ""
  | .i n => n = 0
  | .q x => x = 0
  | .b x => !x
  | .none_ => true
  | .dict xs => xs.isEmpty
  | .list xs => xs.isEmpty

/-- `v[k]`, raising `KeyError` (whose `str()` quotes the key) when absent
and `TypeError` when `v` is not a dict. -/
def item (v : Val) (k : String) : Except String Val :=
  match v with
  | .dict xs =>
    match Dict.get? xs k with
    | some w => .ok w
    | none => .error ("'" ++ k ++ "'")
  | _ => .error "TypeError: value is not subscriptable"

/-- Optional lookup, used to state properties about stored payloads. -/
def get? (v : Val) (k : String) : Option Val :=
  match v with
  | .dict xs => Dict.get? xs k
  | _ => none

/-- The string content, when the value is a string. -/
def str? : Val → Option String
  | .s x => some x
  | _ => none

end Val

/-- Python `int(q)` on rationals: truncation toward zero. -/
def pyInt (x : ℚ) : ℤ :=
  if x < 0 then -⌊-x⌋ else ⌊x⌋

/-- Round-half-to-even to the nearest integer, CPython's `round` rule. -/
def roundHalfEven (x : ℚ) : ℤ :=
  if x - ⌊x⌋ < 1 / 2 then ⌊x⌋
  else if x - ⌊x⌋ > 1 / 2 then ⌊x⌋ + 1
  else if ⌊x⌋ % 2 = 0 then ⌊x⌋ else ⌊x⌋ + 1

/-- Python `round(x, 2)` on exact rationals. -/
def round2 (x : ℚ) : ℚ :=
  (roundHalfEven (x * 100) : ℚ) / 100

/-! ## plan.py — `WipePlanner` -/

/-- The `erase_support` dict of a collected device; the planner reads the
keys `crypto_erase`, `secure_erase`, `format` with `.get(key, False)`. -/
structure EraseSupport : Type where
  crypto_erase : Bool
  secure_erase : Bool
  format : Bool

/-- A collected device as consumed by the planner.  The raw `capacity`
string is modelled by its parsed content: `some c` when the string is
`"<c> TB"` (the only shape `_estimate_duration` treats specially),
`none` otherwise. -/
structure Device : Type where
  model : String
  path : String
  capacityTB : Option ℚ
  erase_support : EraseSupport
  namespace_id : Option Int

/-- `WipePlanner._determine_erase_method` (plan.py lines 135-145). -/
def determineEraseMethod (es : EraseSupport) : Except String String :=
  if es.crypto_erase then .ok "crypto_erase"
  else if es.secure_erase then .ok "secure_erase"
  else if es.format then .ok "format"
  else .error "No supported erase methods found"

/-- The capability flag guarding a method name, for stating that the
planner never picks an unsupported method. -/
def methodFlag (es : EraseSupport) (m : String) : Bool :=
  if m = "crypto_erase" then es.crypto_erase
  else if m = "secure_erase" then es.secure_erase
  else if m = "format" then es.format
  else false

/-- The minute figure `int(capacity_num * factor)` embedded in
`_estimate_duration`'s string for a `"... TB"` capacity
(plan.py lines 178-185). -/
def estimateMinutes (c : ℚ) (method : String) : ℤ :=
  if method = "crypto_erase" then pyInt (c * 2)
  else if method = "secure_erase" then pyInt (c * 5)
  else pyInt (c * (1 / 2))

/-- `WipePlanner._estimate_duration` (plan.py lines 173-187). -/
def estimateDuration (cap : Option ℚ) (method : String) : String :=
  match cap with
  | some c => "~" ++ toString (estimateMinutes c method) ++ " minutes"
  | none => "Unknown (depends on capacity)"

/-- The command descriptor built for a method (plan.py `_build_command`). -/
structure CommandInfo : Type where
  command : String
  args : List String
  description : String

/-- `WipePlanner._build_command` (plan.py lines 147-171). -/
def buildCommand (d : Device) (method : String) : Except String CommandInfo :=
  if method = "crypto_erase" then
    .ok ⟨"sudo", ["nvme", "format", d.path, "--ses=2", "--force"],
         "Crypto erase on " ++ d.path⟩
  else if method = "secure_erase" then
    .ok ⟨"sudo", ["nvme", "format", d.path, "--ses=1", "--force"],
         "Secure erase on " ++ d.path⟩
  else if method = "format" then
    .ok ⟨"sudo", ["nvme", "format", d.path, "--force"],
         "Format on " ++ d.path⟩
  else .error ("Unknown erase method: " ++ method)

/-- `WipePlanner._generate_warnings` (plan.py lines 189-206). -/
def generateWarnings (method : String) (safetyIssues : List String) :
    List String :=
  ["THIS OPERATION WILL PERMANENTLY DESTROY ALL DATA ON THE DEVICE",
   "This operation cannot be undone",
   "Ensure you have backed up any important data"] ++
  [if method = "crypto_erase" then "Crypto erase will destroy encryption keys"
   else if method = "secure_erase" then "Secure erase will overwrite all data"
   else "Format will remove all data and partition tables"] ++
  safetyIssues

/-- `WipePlanner._select_device` (plan.py lines 62-73): both branches
return `devices[0]`; the empty case would be a raised `IndexError`. -/
def selectDevice (devices : List Device) : Option Device :=
  devices.head?

/-- The plan dict assembled by `create_plan` (plan.py lines 50-58). -/
structure ExecutionPlan : Type where
  device : Device
  erase_method : String
  command : CommandInfo
  safety_issues : List String
  estimated_duration : String
  warnings : List String
  created_at : String

/-- `WipePlanner.create_plan` (plan.py lines 19-60).  The outcomes of the
external probes are parameters: `validateOk` is `_validate_device`'s
verdict and `safetyIssues` is `_check_safety_issues`'s list. -/
def createPlan (devices : List Device) (validateOk : Bool)
    (safetyIssues : List String) (now : String) :
    Except String ExecutionPlan :=
  match selectDevice devices with
  | none => .error "No devices found. Run collect phase first."
  | some d =>
    if !validateOk then
      .error ("Device " ++ d.path ++ " is no longer available")
    else
      match determineEraseMethod d.erase_support with
      | .error e => .error e
      | .ok method =>
        match buildCommand d method with
        | .error e => .error e
        | .ok cmd =>
          .ok ⟨d, method, cmd, safetyIssues,
               estimateDuration d.capacityTB method,
               generateWarnings method safetyIssues, now⟩

/-! ## state.py — `StateManager` -/

/-- One entry of the `"phases"` dict: `{"status": ..., "data": ...}`. -/
structure PhaseRec : Type where
  status : String
  data : Dict Val

/-- The in-memory `StateManager._state` document (well-formed shape,
as produced by `_load_state` and maintained by `update_phase`). -/
structure WorkflowState : Type where
  created_at : String
  phases : Dict PhaseRec
  updated_at : Option String

/-- The fresh document built by `_load_state` when no file exists
(state.py lines 29-38). -/
def initialState (now : String) : WorkflowState :=
  ⟨now,
   [("collect", ⟨"pending", []⟩), ("plan", ⟨"pending", []⟩),
    ("execute", ⟨"pending", []⟩), ("report", ⟨"pending", []⟩)],
   none⟩

/-- `StateManager.get_phase_status` (state.py lines 61-63). -/
def getPhaseStatus (s : WorkflowState) (phase : String) : String :=
  match Dict.get? s.phases phase with
  | some r => r.status
  | none => "pending"

/-- `StateManager.get_phase_data` (state.py lines 57-59). -/
def getPhaseData (s : WorkflowState) (phase : String) : Dict Val :=
  match Dict.get? s.phases phase with
  | some r => r.data
  | none => []

/-- `StateManager.save_state` (state.py lines 40-44): stamp `updated_at`
with the current time; the stamped document is what `json.dump` writes. -/
def saveStamp (now : String) (s : WorkflowState) : WorkflowState :=
  { s with updated_at := some now }

/-- `StateManager.update_phase` (state.py lines 46-55): `ValueError` on an
unknown phase; set the status; merge non-empty `data` key-wise into the
existing payload; then `save_state`. -/
def updatePhase (now : String) (s : WorkflowState) (phase status : String)
    (data : Dict Val) : Except String WorkflowState :=
  match Dict.get? s.phases phase with
  | none => .error ("Unknown phase: " ++ phase)
  | some r0 =>
    let r1 : PhaseRec :=
      ⟨status, if data.isEmpty then r0.data else Dict.update r0.data data⟩
    .ok (saveStamp now { s with phases := Dict.setKey s.phases phase r1 })

/-! ### Serialized form of the persisted document

`save_state` writes `json.dump(self._state, f, indent=2, default=str)` and
`_load_state` reads it back with `json.load`.  The file is modelled at the
JSON-value level: `stateToVal` is the document written (keys in CPython
insertion order: `created_at`, `phases`, then `updated_at` once stamped),
`valFromState` parses it back, and `Val.dump` is a deterministic rendering
standing for the emitted text, so value equality is byte equality. -/

/-- The JSON document of a phase record. -/
def phaseToVal (r : PhaseRec) : Val :=
  .dict [("status", .s r.status), ("data", .dict r.data)]

/-- The JSON document `json.dump` serializes for a state. -/
def stateToVal (s : WorkflowState) : Val :=
  .dict ([("created_at", .s s.created_at),
          ("phases", .dict (s.phases.map fun kv => (kv.1, phaseToVal kv.2)))] ++
         (match s.updated_at with
          | some t => [("updated_at", .s t)]
          | none => []))

/-- Recover a phase record from its JSON document. -/
def phaseFromVal (v : Val) : Option PhaseRec :=
  match v.get? "status", v.get? "data" with
  | some (.s st), some (.dict d) => some ⟨st, d⟩
  | _, _ => none

/-- Recover the in-memory state from the loaded JSON document, as the
code's well-formed-shape readers do. -/
def valFromState (v : Val) : Option WorkflowState :=
  match v.get? "created_at", v.get? "phases" with
  | some (.s c), some (.dict ps) =>
    (ps.mapM fun kv => (phaseFromVal kv.2).map fun r => (kv.1, r)).map
      fun phs =>
        ⟨c, phs,
         match v.get? "updated_at" with
         | some (.s t) => some t
         | _ => none⟩
  | _, _ => none

/-- Double-quoted rendering of a string (stands for JSON string quoting;
deterministic, which is all the byte-level statements need). -/
def dq (s : String) : String := "\"" ++ s ++ "\""

mutual

/-- Deterministic rendering of a JSON document, standing for the text
`json.dump` emits: value equality of documents is byte equality of files. -/
def Val.dump : Val → String
  | .s x => dq x
  | .i n => toString n
  | .q x => toString x
  | .b true => "true"
  | .b false => "false"
  | .none_ => "null"
  | .dict xs => "\x7b" ++ Val.dumpPairs xs ++ "\x7d"
  | .list xs => "[" ++ Val.dumpItems xs ++ "]"

/-- Render the bindings of an object, comma-separated. -/
def Val.dumpPairs : List (String × Val) → String
  | [] => ""
  | [(k, v)] => dq k ++ ": " ++ Val.dump v
  | (k, v) :: rest => dq k ++ ": " ++ Val.dump v ++ ", " ++ Val.dumpPairs rest

/-- Render the items of an array, comma-separated. -/
def Val.dumpItems : List Val → String
  | [] => ""
  | [v] => Val.dump v
  | v :: rest => Val.dump v ++ ", " ++ Val.dumpItems rest

end

/-- Parsing the serialized document recovers the phase record exactly. -/
theorem phaseFromVal_phaseToVal (r : PhaseRec) :
    phaseFromVal (phaseToVal r) = some r := rfl

/-- Parsing the serialized document recovers the in-memory state exactly:
`json.load` after `json.dump` loses nothing. -/
theorem valFromState_stateToVal (s : WorkflowState) :
    valFromState (stateToVal s) = some s := by
  obtain ⟨c, ps, u⟩ := s
  have hm : (ps.map fun kv => (kv.1, phaseToVal kv.2)).mapM
      (fun kv => (phaseFromVal kv.2).map fun r => (kv.1, r)) = some ps := by
    induction ps with
    | nil => rfl
    | cons hd tl ih =>
      obtain ⟨k, r⟩ := hd
      simp only [List.map_cons, List.mapM_cons, ih, phaseFromVal_phaseToVal,
        Option.map_some, Option.pure_def, Option.bind_some]
      rfl
  cases u with
  | none =>
    simp only [valFromState, stateToVal, Val.get?, Dict.get?]
    norm_num
    simpa using congrArg (Option.map
      (fun phs => (⟨c, phs, none⟩ : WorkflowState))) hm
  | some t =>
    simp only [valFromState, stateToVal, Val.get?, Dict.get?]
    norm_num
    simpa using congrArg (Option.map
      (fun phs => (⟨c, phs, some t⟩ : WorkflowState))) hm

/-! ## execute.py — `WipeExecutor` -/

/-- Observable outcome of the `subprocess.run` of the wipe command
(execute.py lines 93-132). -/
inductive RunOutcome : Type where
  | exited (returncode : Int) (stdout stderr : String)
  | timedOut
  | notFound
  | exc (msg : String)

/-- The dict `_run_wipe_command` returns. -/
structure CmdResult : Type where
  success : Bool
  output : String
  error : String

/-- `WipeExecutor._run_wipe_command` (execute.py lines 85-132); `cmd` is
the program name interpolated into the `FileNotFoundError` message. -/
def runWipeCommand (cmd : String) (o : RunOutcome) : CmdResult :=
  match o with
  | .exited rc out err =>
    if rc = 0 then ⟨true, out, err⟩
    else ⟨false, out,
          if err = "" then "Command failed with return code " ++ toString rc
          else err⟩
  | .timedOut => ⟨false, "", "Command timed out after 1 hour"⟩
  | .notFound => ⟨false, "", "Command not found: " ++ cmd⟩
  | .exc m => ⟨false, "", "Unexpected error: " ++ m⟩

/-- Observable outcome of the `dd` sampling read in `verify_wipe`
(execute.py lines 140-145); on a clean exit the captured text is held as
its latin-1 byte values (`result.stdout.encode('latin-1')`). -/
inductive ReadOutcome : Type where
  | done (returncode : Int) (stdout : List Nat)
  | timedOut
  | exc (msg : String)

/-- The successful-verification dict of `verify_wipe`
(execute.py lines 179-189), minus the constant `success`/
`verification_method` entries restored by `verifyResultVal`. -/
structure VerifySample : Type where
  total_bytes : Nat
  zero_bytes : Nat
  non_zero_bytes : Nat
  zero_percentage : ℚ
  expected_result : String
  wipe_effective : Bool
  hexdump_sample : String

/-- Result of `verify_wipe`: a sample analysis (`success = True`) or an
error dict (`success = False`). -/
inductive VerifyResult : Type where
  | ok (v : VerifySample)
  | failure (error : String)

/-- Lower-case hex digit of a value below 16. -/
def hexChar (n : Nat) : Char :=
  if n < 10 then Char.ofNat (48 + n) else Char.ofNat (87 + n)

/-- `bytes.hex()` of one byte: two lower-case hex digits. -/
def byteHex (b : Nat) : String :=
  String.mk [hexChar (b / 16 % 16), hexChar (b % 16)]

/-- `bytes.hex()` of a byte string. -/
def hexOfBytes (bs : List Nat) : String :=
  String.join (bs.map byteHex)

/-- `sum(1 for b in data if b != 0)` (execute.py line 158). -/
def countNonZero (bs : List Nat) : Nat :=
  (bs.filter fun b => b ≠ 0).length

/-- `WipeExecutor.verify_wipe` (execute.py lines 134-200).  An empty
sample makes line 160 divide by zero; the `except Exception` handler at
line 196 turns that into the `success = False` dict whose message embeds
`str(ZeroDivisionError)`. -/
def verifyWipe (method : String) (read : ReadOutcome) : VerifyResult :=
  match read with
  | .timedOut => .failure "Verification timed out"
  | .exc m => .failure ("Verification failed: " ++ m)
  | .done rc data =>
    if rc ≠ 0 then .failure "Failed to read device for verification"
    else
      let total := data.length
      if total = 0 then .failure "Verification failed: division by zero"
      else
        let nz := countNonZero data
        let zb := total - nz
        let zp := round2 ((zb : ℚ) / (total : ℚ) * 100)
        let hex := hexOfBytes (data.take 64)
        if method = "secure_erase" then
          .ok ⟨total, zb, nz, zp, "zeros",
               decide ((nz : ℚ) < (total : ℚ) * (1 / 100)), hex⟩
        else if method = "crypto_erase" then
          .ok ⟨total, zb, nz, zp, "random",
               decide ((nz : ℚ) > (total : ℚ) * (1 / 2)), hex⟩
        else
          .ok ⟨total, zb, nz, zp, "zeros",
               decide ((nz : ℚ) < (total : ℚ) * (1 / 100)), hex⟩

/-- The dict `verify_wipe` returns, as stored into phase data. -/
def verifyResultVal : VerifyResult → Val
  | .ok v =>
    .dict [("success", .b true),
           ("total_bytes", .i (v.total_bytes : Int)),
           ("zero_bytes", .i (v.zero_bytes : Int)),
           ("non_zero_bytes", .i (v.non_zero_bytes : Int)),
           ("zero_percentage", .q v.zero_percentage),
           ("expected_result", .s v.expected_result),
           ("wipe_effective", .b v.wipe_effective),
           ("hexdump_sample", .s v.hexdump_sample),
           ("verification_method", .s "dd_analysis")]
  | .failure e => .dict [("success", .b false), ("error", .s e)]

/-- The `EraseOperation` pydantic model's claim-relevant fields
(models.py lines 18-26); the timing fields are supplied by `TimeEnv`. -/
structure EraseOperation : Type where
  method : String
  status : String
  error_message : Option String

/-- The `datetime.now()` observations of one execution attempt and the
derived duration in seconds. -/
structure TimeEnv : Type where
  tStart : String
  tEnd : String
  dur : ℚ

/-- `erase_operation.model_dump()` as stored in phase data. -/
def eraseOpVal (te : TimeEnv) (op : EraseOperation) : Val :=
  .dict [("method", .s op.method),
         ("start_time", .s te.tStart),
         ("end_time", .s te.tEnd),
         ("duration", .q te.dur),
         ("duration_ms", .i (pyInt (te.dur * 1000))),
         ("status", .s op.status),
         ("error_message",
          match op.error_message with
          | some m => .s m
          | none => .none_)]

/-- The external world of one `_run_execute_phase` call: the wipe
command's outcome, the two `dd` verification reads (`execute_wipe` runs
one at line 56, `_run_execute_phase` a second at line 233), the clock. -/
structure ExecEnv : Type where
  outcome : RunOutcome
  vread1 : ReadOutcome
  vread2 : ReadOutcome
  time : TimeEnv
  now : String

/-- The accesses `execute_wipe` performs on the stored plan before the
`try` block (execute.py lines 25-42), in source order; any failure is an
exception propagating to `_run_execute_phase`'s handler.  Returns the
`device` dict, the command name, and the erase method. -/
def extractPlan (planData : Dict Val) :
    Except String (Val × String × String) :=
  match Dict.get? planData "execution_plan" with
  | none => .error "No execution plan found. Run plan phase first."
  | some ep =>
    if ep.falsy then
      .error "No execution plan found. Run plan phase first."
    else
      match ep.item "device" with
      | .error e => .error e
      | .ok device =>
        match ep.item "command" with
        | .error e => .error e
        | .ok cmdInfo =>
          match cmdInfo.item "description" with
          | .error e => .error e
          | .ok _ =>
            match cmdInfo.item "command" with
            | .error e => .error e
            | .ok cmdName =>
              match cmdInfo.item "args" with
              | .error e => .error e
              | .ok _ =>
                match ep.item "erase_method" with
                | .error e => .error e
                | .ok methodV =>
                  match methodV.str? with
                  | some m => .ok (device, cmdName.str?.getD "", m)
                  | none =>
                    .error "ValidationError: erase_method must be a string"

/-- The dict `execute_wipe` returns (execute.py lines 78-83); the
verification it runs on success is printed but not part of this dict. -/
structure ExecResults : Type where
  erase_operation : EraseOperation
  command_output : String
  command_error : String
  execution_time : ℚ

/-- `WipeExecutor.execute_wipe` (execute.py lines 20-83).  On a
successful command the operation is `completed` unless the
`device["path"]` access for verification raises inside the `try`
(caught at line 69, flipping the operation to `failed`); on a failed
command it is `failed` with the command error. -/
def executeWipe (env : ExecEnv) (planData : Dict Val) :
    Except String ExecResults :=
  match extractPlan planData with
  | .error e => .error e
  | .ok (device, cmdName, method) =>
    let rwc := runWipeCommand cmdName env.outcome
    let op : EraseOperation :=
      if rwc.success then
        match device.item "path" with
        | .ok _ => ⟨method, "completed", none⟩
        | .error e => ⟨method, "failed", some e⟩
      else ⟨method, "failed", some rwc.error⟩
    .ok ⟨op, rwc.output, rwc.error, env.time.dur⟩

/-- How a `_run_execute_phase` call ended: the early out-of-order return,
a normal return, or an exception escaping the function. -/
inductive ExecTag : Type where
  | outOfOrder
  | finished
  | raised (msg : String)

/-- Full observable result of `_run_execute_phase`: the state left in the
store, how the call ended, and whether the wipe command was invoked. -/
structure ExecPhaseResult : Type where
  state : WorkflowState
  tag : ExecTag
  wipeInvoked : Bool

/-- The `execution_results` dict as merged into the `execute` phase data. -/
def execResultsVal (te : TimeEnv) (r : ExecResults) : Dict Val :=
  [("erase_operation", eraseOpVal te r.erase_operation),
   ("command_output", .s r.command_output),
   ("command_error", .s r.command_error),
   ("execution_time", .q r.execution_time)]

/-- The `except` handler of `_run_execute_phase` (execute.py lines
257-259): record the failure; if that `update_phase` itself raises the
exception escapes the function. -/
def execFail (env : ExecEnv) (s : WorkflowState) (e : String)
    (invoked : Bool) : ExecPhaseResult :=
  match updatePhase env.now s "execute" "failed" [("error", .s e)] with
  | .ok s2 => ⟨s2, .finished, invoked⟩
  | .error m => ⟨s, .raised m, invoked⟩

/-- The re-verification lookups `_run_execute_phase` performs at lines
231-232 (`plan_data["execution_plan"]["device"]["path"]`). -/
def reverifyPath (planData : Dict Val) : Except String Val :=
  match Dict.get? planData "execution_plan" with
  | none => .error "'execution_plan'"
  | some ep =>
    match ep.item "device" with
    | .error e => .error e
    | .ok dev => dev.item "path"

/-- `_run_execute_phase` (execute.py lines 214-259).  Notable faithful
details: the phase is persisted `completed` whenever `execute_wipe`
returns without raising, regardless of the operation's own status; the
second verification always uses the default method `"format"`; when that
verification succeeds, the summary print accesses the absent
`is_all_zeros` key, and the resulting `KeyError` drives the handler to
overwrite the phase status with `failed`. -/
def runExecutePhase (env : ExecEnv) (s : WorkflowState) : ExecPhaseResult :=
  if getPhaseStatus s "plan" ≠ "completed" then ⟨s, .outOfOrder, false⟩
  else
    match updatePhase env.now s "execute" "running" [] with
    | .error m => ⟨s, .raised m, false⟩
    | .ok s1 =>
      match executeWipe env (getPhaseData s1 "plan") with
      | .error e => execFail env s1 e false
      | .ok r =>
        if r.erase_operation.status = "completed" then
          match reverifyPath (getPhaseData s1 "plan") with
          | .error e => execFail env s1 e true
          | .ok _ =>
            let verification := verifyWipe "format" env.vread2
            let data := execResultsVal env.time r ++
              [("verification", verifyResultVal verification)]
            match updatePhase env.now s1 "execute" "completed" data with
            | .error m => ⟨s1, .raised m, true⟩
            | .ok s2 =>
              match verification with
              | .ok _ => execFail env s2 "'is_all_zeros'" true
              | .failure _ => ⟨s2, .finished, true⟩
        else
          match updatePhase env.now s1 "execute" "completed"
              (execResultsVal env.time r) with
          | .error m => ⟨s1, .raised m, true⟩
          | .ok s2 => ⟨s2, .finished, true⟩

/-- A field of the erase operation recorded in the `execute` phase data. -/
def recordedOpField (s : WorkflowState) (k : String) : Option Val :=
  (Dict.get? (getPhaseData s "execute") "erase_operation").bind
    fun v => v.get? k

/-- The verification dict recorded in the `execute` phase data. -/
def recordedVerification (s : WorkflowState) : Option Val :=
  Dict.get? (getPhaseData s "execute") "verification"

/-! ## Claim theorems -/

/-- Helper: `pyInt` on a non-negative rational is the floor. -/
theorem pyInt_of_nonneg {x : ℚ} (h : 0 ≤ x) : pyInt x = ⌊x⌋ := by
  simp [pyInt, not_lt.mpr h]

/-- C2: with at least one true capability flag the planner picks
`crypto_erase`, else `secure_erase`, else `format`, in that priority
order; it never returns a method whose flag is false, and with all flags
false it fails with the no-supported-method error. -/
theorem C2_method_priority (es : EraseSupport) :
    (es.crypto_erase = true →
      determineEraseMethod es = .ok "crypto_erase") ∧
    (es.crypto_erase = false → es.secure_erase = true →
      determineEraseMethod es = .ok "secure_erase") ∧
    (es.crypto_erase = false → es.secure_erase = false → es.format = true →
      determineEraseMethod es = .ok "format") ∧
    (∀ m, determineEraseMethod es = .ok m → methodFlag es m = true) ∧
    (es.crypto_erase = false → es.secure_erase = false → es.format = false →
      determineEraseMethod es =
        .error "No supported erase methods found") := by
  refine ⟨?_, ?_, ?_, ?_, ?_⟩
  · intro hc
    unfold determineEraseMethod
    rw [if_pos hc]
  · intro hc hs
    unfold determineEraseMethod
    rw [if_neg (by simp [hc]), if_pos hs]
  · intro hc hs hf
    unfold determineEraseMethod
    rw [if_neg (by simp [hc]), if_neg (by simp [hs]), if_pos hf]
  · intro m hm
    unfold determineEraseMethod at hm
    by_cases h1 : es.crypto_erase = true
    · rw [if_pos h1] at hm
      cases hm
      simp [methodFlag, h1]
    · rw [if_neg h1] at hm
      by_cases h2 : es.secure_erase = true
      · rw [if_pos h2] at hm
        cases hm
        simp [methodFlag, h2]
      · rw [if_neg h2] at hm
        by_cases h3 : es.format = true
        · rw [if_pos h3] at hm
          cases hm
          simp [methodFlag, h3]
        · rw [if_neg h3] at hm
          cases hm
  · intro hc hs hf
    unfold determineEraseMethod
    rw [if_neg (by simp [hc]), if_neg (by simp [hs]), if_neg (by simp [hf])]

/-- C2 witness: a concrete capability set with every flag true selects
`crypto_erase`. -/
theorem C2_witness :
    determineEraseMethod ⟨true, true, true⟩ = .ok "crypto_erase" :=
  (C2_method_priority ⟨true, true, true⟩).1 rfl

/-- C7 counterexample: at a reported capacity of 1 TB the estimates are
crypto 2 minutes, format 0 minutes, secure 5 minutes, so the claimed
ordering `estimate(crypto_erase) < estimate(format)` is false — format is
the fastest method in the code, not the intermediate one. -/
theorem C7_counterexample :
    estimateMinutes 1 "crypto_erase" = 2 ∧
    estimateMinutes 1 "format" = 0 ∧
    estimateMinutes 1 "secure_erase" = 5 ∧
    ¬ estimateMinutes 1 "crypto_erase" < estimateMinutes 1 "format" := by
  have h1 : estimateMinutes 1 "crypto_erase" = 2 := by
    unfold estimateMinutes
    rw [if_pos rfl]
    norm_num [pyInt]
  have h2 : estimateMinutes 1 "format" = 0 := by
    unfold estimateMinutes
    rw [if_neg (by decide), if_neg (by decide)]
    norm_num [pyInt]
  have h3 : estimateMinutes 1 "secure_erase" = 5 := by
    unfold estimateMinutes
    rw [if_neg (by decide), if_pos rfl]
    norm_num [pyInt]
  exact ⟨h1, h2, h3, by rw [h1, h2]; decide⟩

/-- C7 amended: for every reported capacity of at least 1 TB the
estimated durations are ordered with `format` fastest, `crypto_erase`
intermediate and `secure_erase` slowest. -/
theorem C7_amended (c : ℚ) (h : 1 ≤ c) :
    estimateMinutes c "format" < estimateMinutes c "crypto_erase" ∧
    estimateMinutes c "crypto_erase" < estimateMinutes c "secure_erase" := by
  have hhalf : (0 : ℚ) ≤ c * (1 / 2) := by nlinarith
  have h2 : (0 : ℚ) ≤ c * 2 := by nlinarith
  have h5 : (0 : ℚ) ≤ c * 5 := by nlinarith
  have ef : estimateMinutes c "format" = ⌊c * (1 / 2)⌋ := by
    unfold estimateMinutes
    rw [if_neg (by decide), if_neg (by decide), pyInt_of_nonneg hhalf]
  have ec : estimateMinutes c "crypto_erase" = ⌊c * 2⌋ := by
    unfold estimateMinutes
    rw [if_pos rfl, pyInt_of_nonneg h2]
  have es : estimateMinutes c "secure_erase" = ⌊c * 5⌋ := by
    unfold estimateMinutes
    rw [if_neg (by decide), if_pos rfl, pyInt_of_nonneg h5]
  rw [ef, ec, es]
  constructor
  · have hfl : (↑⌊c * (1 / 2)⌋ : ℚ) ≤ c * (1 / 2) := Int.floor_le _
    have hle : ((⌊c * (1 / 2)⌋ + 1 : ℤ) : ℚ) ≤ c * 2 := by
      push_cast
      linarith
    have := Int.le_floor.mpr hle
    omega
  · have hfl : (↑⌊c * 2⌋ : ℚ) ≤ c * 2 := Int.floor_le _
    have hle : ((⌊c * 2⌋ + 1 : ℤ) : ℚ) ≤ c * 5 := by
      push_cast
      linarith
    have := Int.le_floor.mpr hle
    omega

/-- C7 witness: the amended ordering at the concrete capacity 1 TB. -/
theorem C7_witness :
    estimateMinutes 1 "format" < estimateMinutes 1 "crypto_erase" ∧
    estimateMinutes 1 "crypto_erase" < estimateMinutes 1 "secure_erase" :=
  C7_amended 1 (by norm_num)

/-- C9: plan creation always binds the plan to the first collected
device; later devices are never selected. -/
theorem C9_plan_targets_first_device (d : Device) (ds : List Device)
    (validateOk : Bool) (issues : List String) (now : String)
    (p : ExecutionPlan)
    (h : createPlan (d :: ds) validateOk issues now = .ok p) :
    selectDevice (d :: ds) = some d ∧ p.device = d := by
  refine ⟨rfl, ?_⟩
  by_cases hv : validateOk = true
  · cases hm : determineEraseMethod d.erase_support with
    | error e =>
      unfold createPlan at h
      simp [selectDevice, hv, hm] at h
    | ok m =>
      cases hc : buildCommand d m with
      | error e =>
        unfold createPlan at h
        simp [selectDevice, hv, hm, hc] at h
      | ok cmd =>
        unfold createPlan at h
        simp [selectDevice, hv, hm, hc] at h
        rw [← h]
  · have hv' : validateOk = false := by
      cases validateOk
      · rfl
      · exact absurd rfl hv
    unfold createPlan at h
    simp [selectDevice, hv'] at h

/-- C9 witness: with two collected devices the plan binds to the first. -/
theorem C9_witness :
    ∃ p, createPlan
        [⟨"A", "/dev/nvme0n1", none, ⟨true, true, true⟩, none⟩,
         ⟨"B", "/dev/nvme1n1", none, ⟨true, true, true⟩, none⟩]
        true [] "t0" = .ok p ∧
      p.device = ⟨"A", "/dev/nvme0n1", none, ⟨true, true, true⟩, none⟩ := by
  have hp : createPlan
      [⟨"A", "/dev/nvme0n1", none, ⟨true, true, true⟩, none⟩,
       ⟨"B", "/dev/nvme1n1", none, ⟨true, true, true⟩, none⟩]
      true [] "t0" =
      .ok ⟨⟨"A", "/dev/nvme0n1", none, ⟨true, true, true⟩, none⟩,
           "crypto_erase",
           ⟨"sudo", ["nvme", "format", "/dev/nvme0n1", "--ses=2", "--force"],
            "Crypto erase on /dev/nvme0n1"⟩,
           [], "Unknown (depends on capacity)",
           generateWarnings "crypto_erase" [], "t0"⟩ := rfl
  exact ⟨_, hp, (C9_plan_targets_first_device _ _ _ _ _ _ hp).2⟩

/-- C10: a successful device read that returns an empty sample makes
`verify_wipe` return the `success = False` dict carrying the
`ZeroDivisionError` text, for every erase method — the division is
guarded by the surrounding handler, no exception escapes. -/
theorem C10_empty_sample (method : String) :
    verifyWipe method (.done 0 []) =
      .failure "Verification failed: division by zero" := rfl

/-- C3: on a successful non-empty sample, `format` and `secure_erase`
expect signature `zeros` and are effective exactly when non-zero bytes
are below 1% of the sample, `crypto_erase` expects `random` and is
effective exactly when non-zero bytes exceed 50%, and the reported zero
percentage is `zeroBytes / totalBytes * 100` rounded to two decimals. -/
theorem C3_verification_classification (data : List Nat) (h : data ≠ []) :
    ∃ vf vs vc : VerifySample,
      verifyWipe "format" (.done 0 data) = .ok vf ∧
      verifyWipe "secure_erase" (.done 0 data) = .ok vs ∧
      verifyWipe "crypto_erase" (.done 0 data) = .ok vc ∧
      vf.expected_result = "zeros" ∧
      vs.expected_result = "zeros" ∧
      vc.expected_result = "random" ∧
      (vf.wipe_effective = true ↔
        (countNonZero data : ℚ) < (data.length : ℚ) / 100) ∧
      (vs.wipe_effective = true ↔
        (countNonZero data : ℚ) < (data.length : ℚ) / 100) ∧
      (vc.wipe_effective = true ↔
        (countNonZero data : ℚ) > (data.length : ℚ) / 2) ∧
      vf.zero_percentage =
        round2 (((data.length - countNonZero data : ℕ) : ℚ) /
          (data.length : ℚ) * 100) ∧
      vs.zero_percentage = vf.zero_percentage ∧
      vc.zero_percentage = vf.zero_percentage ∧
      vf.total_bytes = data.length ∧
      vf.non_zero_bytes = countNonZero data ∧
      vf.zero_bytes = data.length - countNonZero data := by
  have hlen : ¬ data.length = 0 := by simpa using h
  have hf : verifyWipe "format" (.done 0 data) =
      .ok ⟨data.length, data.length - countNonZero data, countNonZero data,
           round2 (((data.length - countNonZero data : ℕ) : ℚ) /
             (data.length : ℚ) * 100),
           "zeros",
           decide ((countNonZero data : ℚ) <
             (data.length : ℚ) * (1 / 100)),
           hexOfBytes (data.take 64)⟩ := by
    simp [verifyWipe, hlen]
  have hs : verifyWipe "secure_erase" (.done 0 data) =
      .ok ⟨data.length, data.length - countNonZero data, countNonZero data,
           round2 (((data.length - countNonZero data : ℕ) : ℚ) /
             (data.length : ℚ) * 100),
           "zeros",
           decide ((countNonZero data : ℚ) <
             (data.length : ℚ) * (1 / 100)),
           hexOfBytes (data.take 64)⟩ := by
    simp [verifyWipe, hlen]
  have hc : verifyWipe "crypto_erase" (.done 0 data) =
      .ok ⟨data.length, data.length - countNonZero data, countNonZero data,
           round2 (((data.length - countNonZero data : ℕ) : ℚ) /
             (data.length : ℚ) * 100),
           "random",
           decide ((countNonZero data : ℚ) >
             (data.length : ℚ) * (1 / 2)),
           hexOfBytes (data.take 64)⟩ := by
    simp [verifyWipe, hlen]
  refine ⟨_, _, _, hf, hs, hc, rfl, rfl, rfl, ?_, ?_, ?_, rfl, rfl, rfl,
    rfl, rfl, rfl⟩
  · rw [decide_eq_true_iff, mul_one_div]
  · rw [decide_eq_true_iff, mul_one_div]
  · rw [decide_eq_true_iff, mul_one_div]

/-- C3 witness: the classification at the concrete sample
`[0, 0, 0, 1]` (4 bytes, one non-zero). -/
theorem C3_witness :
    ∃ vf vs vc : VerifySample,
      verifyWipe "format" (.done 0 [0, 0, 0, 1]) = .ok vf ∧
      verifyWipe "secure_erase" (.done 0 [0, 0, 0, 1]) = .ok vs ∧
      verifyWipe "crypto_erase" (.done 0 [0, 0, 0, 1]) = .ok vc ∧
      vf.expected_result = "zeros" ∧
      vs.expected_result = "zeros" ∧
      vc.expected_result = "random" ∧
      (vf.wipe_effective = true ↔
        (countNonZero [0, 0, 0, 1] : ℚ) <
          (([0, 0, 0, 1] : List Nat).length : ℚ) / 100) ∧
      (vs.wipe_effective = true ↔
        (countNonZero [0, 0, 0, 1] : ℚ) <
          (([0, 0, 0, 1] : List Nat).length : ℚ) / 100) ∧
      (vc.wipe_effective = true ↔
        (countNonZero [0, 0, 0, 1] : ℚ) >
          (([0, 0, 0, 1] : List Nat).length : ℚ) / 2) ∧
      vf.zero_percentage =
        round2 (((([0, 0, 0, 1] : List Nat).length -
            countNonZero [0, 0, 0, 1] : ℕ) : ℚ) /
          (([0, 0, 0, 1] : List Nat).length : ℚ) * 100) ∧
      vs.zero_percentage = vf.zero_percentage ∧
      vc.zero_percentage = vf.zero_percentage ∧
      vf.total_bytes = ([0, 0, 0, 1] : List Nat).length ∧
      vf.non_zero_bytes = countNonZero [0, 0, 0, 1] ∧
      vf.zero_bytes =
        ([0, 0, 0, 1] : List Nat).length - countNonZero [0, 0, 0, 1] :=
  C3_verification_classification [0, 0, 0, 1] (by simp)

/-- C6: a transition with partial data merges it key-wise into the
phase's existing payload: merged keys take the new value, previously
recorded keys not mentioned in the update survive unchanged. -/
theorem C6_partial_data_merged (now : String) (s : WorkflowState)
    (phase status : String) (r0 : PhaseRec) (newData : Dict Val)
    (s2 : WorkflowState)
    (h0 : Dict.get? s.phases phase = some r0)
    (hne : newData ≠ [])
    (hnd : (newData.map Prod.fst).Nodup)
    (h : updatePhase now s phase status newData = .ok s2) :
    getPhaseData s2 phase = Dict.update r0.data newData ∧
    (∀ k, Dict.get? newData k = none →
      Dict.get? (getPhaseData s2 phase) k = Dict.get? r0.data k) ∧
    (∀ k v, Dict.get? newData k = some v →
      Dict.get? (getPhaseData s2 phase) k = some v) := by
  have hemp : newData.isEmpty = false := by
    cases newData with
    | nil => exact absurd rfl hne
    | cons a l => rfl
  simp only [updatePhase, h0, hemp, Bool.false_eq_true, if_false,
    Except.ok.injEq] at h
  subst h
  have hd : getPhaseData
      (saveStamp now
        { s with phases := (Dict.setKey s.phases phase
            { status := status, data := Dict.update r0.data newData }) })
      phase = Dict.update r0.data newData := by
    unfold getPhaseData saveStamp
    rw [Dict.get?_setKey]
    simp
  refine ⟨hd, ?_, ?_⟩
  · intro k hk
    rw [hd, Dict.get?_update _ _ _ hnd, hk]
  · intro k v hk
    rw [hd, Dict.get?_update _ _ _ hnd, hk]

/-- C6 witness: phase data `{a: 1}` updated with `{b: 2}` becomes
`{a: 1, b: 2}`. -/
theorem C6_witness :
    ∃ s2, updatePhase "t1"
        ⟨"c0",
         [("collect", ⟨"completed", []⟩),
          ("plan", ⟨"completed", [("a", Val.i 1)]⟩),
          ("execute", ⟨"pending", []⟩), ("report", ⟨"pending", []⟩)],
         some "u0"⟩
        "plan" "completed" [("b", Val.i 2)] = .ok s2 ∧
      getPhaseData s2 "plan" = [("a", Val.i 1), ("b", Val.i 2)] := by
  have hu : updatePhase "t1"
      ⟨"c0",
       [("collect", ⟨"completed", []⟩),
        ("plan", ⟨"completed", [("a", Val.i 1)]⟩),
        ("execute", ⟨"pending", []⟩), ("report", ⟨"pending", []⟩)],
       some "u0"⟩
      "plan" "completed" [("b", Val.i 2)] =
      .ok ⟨"c0",
           [("collect", ⟨"completed", []⟩),
            ("plan", ⟨"completed", [("a", Val.i 1), ("b", Val.i 2)]⟩),
            ("execute", ⟨"pending", []⟩), ("report", ⟨"pending", []⟩)],
           some "t1"⟩ := rfl
  have hm := C6_partial_data_merged "t1"
    ⟨"c0",
     [("collect", ⟨"completed", []⟩),
      ("plan", ⟨"completed", [("a", Val.i 1)]⟩),
      ("execute", ⟨"pending", []⟩), ("report", ⟨"pending", []⟩)],
     some "u0"⟩
    "plan" "completed"
    ⟨"completed", [("a", Val.i 1)]⟩ [("b", Val.i 2)] _ rfl
    (by simp) (by simp) hu
  exact ⟨_, hu, by rw [hm.1]; rfl⟩

/-- C8: saving a workflow state, reloading the written document, and
saving again is idempotent — the reload reproduces every phase status
and every data key, the second save differs from the first only in the
`updated_at` stamp, and with the same stamp the re-persisted document is
byte-for-byte identical. -/
theorem C8_state_roundtrip (s : WorkflowState) (t1 t2 : String) :
    ∃ s1, valFromState (stateToVal (saveStamp t1 s)) = some s1 ∧
      (∀ p, getPhaseStatus s1 p = getPhaseStatus (saveStamp t1 s) p) ∧
      (∀ p, getPhaseData s1 p = getPhaseData (saveStamp t1 s) p) ∧
      saveStamp t2 s1 = saveStamp t2 (saveStamp t1 s) ∧
      Val.dump (stateToVal { saveStamp t2 s1 with updated_at := none }) =
        Val.dump (stateToVal { saveStamp t1 s with updated_at := none }) ∧
      (t2 = t1 →
        Val.dump (stateToVal (saveStamp t2 s1)) =
          Val.dump (stateToVal (saveStamp t1 s))) := by
  refine ⟨saveStamp t1 s, valFromState_stateToVal _, fun p => rfl,
    fun p => rfl, rfl, rfl, ?_⟩
  intro ht
  subst ht
  rfl

/-- C8 witness: the round trip on the concrete initial state. -/
theorem C8_witness :
    ∃ s1, valFromState (stateToVal (saveStamp "u1" (initialState "c0"))) =
        some s1 ∧
      Val.dump (stateToVal (saveStamp "u1" s1)) =
        Val.dump (stateToVal (saveStamp "u1" (initialState "c0"))) := by
  obtain ⟨s1, h1, -, -, -, -, h6⟩ :=
    C8_state_roundtrip (initialState "c0") "u1" "u1"
  exact ⟨s1, h1, h6 rfl⟩

/-- Helper: a non-empty left part keeps a concatenation non-empty. -/
theorem concat_ne_empty (a b : String) (ha : 0 < a.length) :
    a ++ b ≠ "" := by
  intro hc
  have hl := congrArg String.length hc
  rw [String.length_append] at hl
  have h0 : String.length "" = 0 := rfl
  rw [h0] at hl
  omega

/-- Helper: a failed wipe command always carries a non-empty error
message (stderr, or one of the synthesized messages). -/
theorem runWipeCommand_error_nonempty (cmd : String) (o : RunOutcome)
    (h : (runWipeCommand cmd o).success = false) :
    (runWipeCommand cmd o).error ≠ "" := by
  cases o with
  | exited rc out err =>
    simp only [runWipeCommand] at h ⊢
    by_cases hrc : rc = 0
    · rw [if_pos hrc] at h
      cases h
    · rw [if_neg hrc] at h ⊢
      by_cases he : err = ""
      · simp only [he, if_pos rfl]
        exact concat_ne_empty _ _ (by decide)
      · simp only [if_neg he]
        exact he
  | timedOut =>
    simp only [runWipeCommand]
    decide
  | notFound =>
    simp only [runWipeCommand]
    exact concat_ne_empty _ _ (by decide)
  | exc m =>
    simp only [runWipeCommand]
    exact concat_ne_empty _ _ (by decide)

/-- The state after `update_phase("execute", "running")` inside
`_run_execute_phase`, when the phase exists with record `rE`. -/
def runningState (now : String) (s : WorkflowState) (rE : PhaseRec) :
    WorkflowState :=
  saveStamp now
    { s with phases := (Dict.setKey s.phases "execute"
        { status := "running", data := rE.data }) }

theorem updatePhase_running (now : String) (s : WorkflowState)
    (rE : PhaseRec) (hexec : Dict.get? s.phases "execute" = some rE) :
    updatePhase now s "execute" "running" [] =
      .ok (runningState now s rE) := by
  simp only [updatePhase, hexec]
  rfl

theorem getPhaseData_runningState (now : String) (s : WorkflowState)
    (rE : PhaseRec) (p : String) (hp : "execute" ≠ p) :
    getPhaseData (runningState now s rE) p = getPhaseData s p := by
  unfold getPhaseData runningState saveStamp
  rw [Dict.get?_setKey, if_neg hp]

theorem get?_runningState_execute (now : String) (s : WorkflowState)
    (rE : PhaseRec) :
    Dict.get? (runningState now s rE).phases "execute" =
      some ⟨"running", rE.data⟩ := by
  unfold runningState saveStamp
  rw [Dict.get?_setKey, if_pos rfl]

/-- `update_phase` with non-empty data, written as the explicit state it
produces. -/
theorem updatePhase_eq_ok (now : String) (s : WorkflowState)
    (phase status : String) (data : Dict Val) (r0 : PhaseRec)
    (h0 : Dict.get? s.phases phase = some r0) (hne : data ≠ []) :
    updatePhase now s phase status data =
      .ok (saveStamp now
        { s with phases := (Dict.setKey s.phases phase
            { status := status, data := Dict.update r0.data data }) }) := by
  have hemp : data.isEmpty = false := by
    cases data with
    | nil => exact absurd rfl hne
    | cons a l => rfl
  simp only [updatePhase, h0, hemp, Bool.false_eq_true, if_false]

/-- C4: attempting the execute phase while the plan phase is not
`completed` returns immediately with the out-of-order outcome: the state
is untouched, no wipe command is invoked, and the `execute` phase status
is unchanged (`pending` stays `pending`). -/
theorem C4_execute_out_of_order (env : ExecEnv) (s : WorkflowState)
    (h : getPhaseStatus s "plan" ≠ "completed") :
    runExecutePhase env s = ⟨s, .outOfOrder, false⟩ ∧
    getPhaseStatus (runExecutePhase env s).state "execute" =
      getPhaseStatus s "execute" := by
  have hr : runExecutePhase env s = ⟨s, .outOfOrder, false⟩ := by
    unfold runExecutePhase
    rw [if_pos h]
  exact ⟨hr, by rw [hr]⟩

/-- C4 witness: on the fresh workflow state (plan still `pending`) the
execute phase refuses to run and leaves `execute` at `pending`. -/
theorem C4_witness :
    runExecutePhase ⟨.timedOut, .timedOut, .timedOut, ⟨"t0", "t1", 0⟩, "n0"⟩
        (initialState "c0") =
      ⟨initialState "c0", .outOfOrder, false⟩ ∧
    getPhaseStatus (runExecutePhase
        ⟨.timedOut, .timedOut, .timedOut, ⟨"t0", "t1", 0⟩, "n0"⟩
        (initialState "c0")).state "execute" =
      getPhaseStatus (initialState "c0") "execute" :=
  C4_execute_out_of_order _ _ (by decide)

theorem getPhaseStatus_setKey_self (now : String) (s : WorkflowState)
    (k : String) (r : PhaseRec) :
    getPhaseStatus
      (saveStamp now { s with phases := (Dict.setKey s.phases k r) }) k =
      r.status := by
  unfold getPhaseStatus saveStamp
  rw [Dict.get?_setKey, if_pos rfl]

theorem getPhaseData_setKey_self (now : String) (s : WorkflowState)
    (k : String) (r : PhaseRec) :
    getPhaseData
      (saveStamp now { s with phases := (Dict.setKey s.phases k r) }) k =
      r.data := by
  unfold getPhaseData saveStamp
  rw [Dict.get?_setKey, if_pos rfl]

/-- C1 amended: an execution-time command error (timeout, missing binary,
non-zero exit) leaves the `EraseOperation` `failed` with a non-empty
error message, but `_run_execute_phase` still persists the `execute`
phase as `completed` — the phase status records that the attempt ran,
not that the wipe succeeded; the failure lives in the recorded
operation, not in the phase status. -/
theorem C1_failed_command_phase_completed (env : ExecEnv)
    (s : WorkflowState) (rE : PhaseRec) (device : Val)
    (cmdName method : String)
    (hplan : getPhaseStatus s "plan" = "completed")
    (hexec : Dict.get? s.phases "execute" = some rE)
    (hx : extractPlan (getPhaseData s "plan") =
      .ok (device, cmdName, method))
    (hfail : (runWipeCommand cmdName env.outcome).success = false) :
    executeWipe env (getPhaseData s "plan") =
      .ok ⟨⟨method, "failed",
            some (runWipeCommand cmdName env.outcome).error⟩,
           (runWipeCommand cmdName env.outcome).output,
           (runWipeCommand cmdName env.outcome).error, env.time.dur⟩ ∧
    (runWipeCommand cmdName env.outcome).error ≠ "" ∧
    (runExecutePhase env s).tag = .finished ∧
    getPhaseStatus (runExecutePhase env s).state "execute" = "completed" ∧
    recordedOpField (runExecutePhase env s).state "status" =
      some (.s "failed") ∧
    recordedOpField (runExecutePhase env s).state "error_message" =
      some (.s (runWipeCommand cmdName env.outcome).error) := by
  have hew : executeWipe env (getPhaseData s "plan") =
      .ok ⟨⟨method, "failed",
            some (runWipeCommand cmdName env.outcome).error⟩,
           (runWipeCommand cmdName env.outcome).output,
           (runWipeCommand cmdName env.outcome).error, env.time.dur⟩ := by
    simp only [executeWipe, hx, hfail, Bool.false_eq_true, if_false]
  have herr := runWipeCommand_error_nonempty cmdName env.outcome hfail
  have hup1 := updatePhase_running env.now s rE hexec
  have hpd : getPhaseData (runningState env.now s rE) "plan" =
      getPhaseData s "plan" :=
    getPhaseData_runningState env.now s rE "plan" (by decide)
  have hup2 := updatePhase_eq_ok env.now (runningState env.now s rE)
    "execute" "completed"
    (execResultsVal env.time
      ⟨⟨method, "failed", some (runWipeCommand cmdName env.outcome).error⟩,
       (runWipeCommand cmdName env.outcome).output,
       (runWipeCommand cmdName env.outcome).error, env.time.dur⟩)
    ⟨"running", rE.data⟩ (get?_runningState_execute env.now s rE)
    (by simp [execResultsVal])
  have hrun : runExecutePhase env s =
      ⟨saveStamp env.now
        { runningState env.now s rE with phases :=
            (Dict.setKey (runningState env.now s rE).phases "execute"
              { status := "completed",
                data := Dict.update rE.data (execResultsVal env.time
                  ⟨⟨method, "failed",
                    some (runWipeCommand cmdName env.outcome).error⟩,
                   (runWipeCommand cmdName env.outcome).output,
                   (runWipeCommand cmdName env.outcome).error,
                   env.time.dur⟩) }) },
       .finished, true⟩ := by
    simp only [runExecutePhase, hplan, ne_eq, eq_self_iff_true, not_true,
      Bool.false_eq_true, if_false, hup1, hpd, hew]
    rw [if_neg (show ¬ ("failed" = "completed") by decide)]
    rw [hup2]
  have hnodup : (((execResultsVal env.time
      ⟨⟨method, "failed", some (runWipeCommand cmdName env.outcome).error⟩,
       (runWipeCommand cmdName env.outcome).output,
       (runWipeCommand cmdName env.outcome).error,
       env.time.dur⟩) : Dict Val).map Prod.fst).Nodup := by
    simp [execResultsVal]
  refine ⟨hew, herr, ?_, ?_, ?_, ?_⟩
  · rw [hrun]
  · simp only [hrun]
    exact getPhaseStatus_setKey_self _ _ _ _
  · simp only [hrun, recordedOpField]
    rw [getPhaseData_setKey_self, Dict.get?_update _ _ _ hnodup]
    rfl
  · simp only [hrun, recordedOpField]
    rw [getPhaseData_setKey_self, Dict.get?_update _ _ _ hnodup]
    rfl

/-- The external world of the C1 scenario: the wipe command times out. -/
def c1Env : ExecEnv :=
  ⟨.timedOut, .timedOut, .timedOut, ⟨"t0", "t1", 5⟩, "n0"⟩

/-- A workflow state whose plan phase is completed with a valid stored
execution plan (secure erase of /dev/nvme0n1). -/
def c1State : WorkflowState :=
  ⟨"c0",
   [("collect", ⟨"completed", []⟩),
    ("plan", ⟨"completed",
      [("execution_plan", .dict
        [("device", .dict [("path", .s "/dev/nvme0n1")]),
         ("erase_method", .s "secure_erase"),
         ("command", .dict
           [("command", .s "sudo"),
            ("args", .list [.s "nvme", .s "format", .s "/dev/nvme0n1",
              .s "--ses=1", .s "--force"]),
            ("description", .s "Secure erase on /dev/nvme0n1")])])]⟩),
    ("execute", ⟨"pending", []⟩),
    ("report", ⟨"pending", []⟩)],
   some "u0"⟩

/-- C1 counterexample: a timed-out wipe command records the operation as
`failed` with its error message, yet the persisted `execute` phase
status is `completed`, not `failed` — refuting the claim that the phase
is also marked `failed`. -/
theorem C1_counterexample :
    recordedOpField (runExecutePhase c1Env c1State).state "status" =
      some (.s "failed") ∧
    recordedOpField (runExecutePhase c1Env c1State).state
      "error_message" = some (.s "Command timed out after 1 hour") ∧
    getPhaseStatus (runExecutePhase c1Env c1State).state "execute" =
      "completed" ∧
    "completed" ≠ "failed" :=
  ⟨rfl, rfl, rfl, by decide⟩

/-- C1 witness: the amended statement at the concrete timed-out run. -/
theorem C1_witness :
    executeWipe c1Env (getPhaseData c1State "plan") =
      .ok ⟨⟨"secure_erase", "failed",
            some (runWipeCommand "sudo" c1Env.outcome).error⟩,
           (runWipeCommand "sudo" c1Env.outcome).output,
           (runWipeCommand "sudo" c1Env.outcome).error, c1Env.time.dur⟩ ∧
    (runWipeCommand "sudo" c1Env.outcome).error ≠ "" ∧
    (runExecutePhase c1Env c1State).tag = .finished ∧
    getPhaseStatus (runExecutePhase c1Env c1State).state "execute" =
      "completed" ∧
    recordedOpField (runExecutePhase c1Env c1State).state "status" =
      some (.s "failed") ∧
    recordedOpField (runExecutePhase c1Env c1State).state
      "error_message" =
      some (.s (runWipeCommand "sudo" c1Env.outcome).error) :=
  C1_failed_command_phase_completed c1Env c1State ⟨"pending", []⟩
    (.dict [("path", .s "/dev/nvme0n1")]) "sudo" "secure_erase"
    rfl rfl rfl rfl

/-- Helper: a successful plan extraction pins down the stored
`execution_plan` and its `device` entry. -/
theorem extractPlan_ok_inv (pd : Dict Val) (dev : Val) (cn m : String)
    (h : extractPlan pd = .ok (dev, cn, m)) :
    ∃ ep, Dict.get? pd "execution_plan" = some ep ∧
      ep.item "device" = .ok dev := by
  unfold extractPlan at h
  split at h
  · simp at h
  · rename_i ep hg
    split at h
    · simp at h
    · split at h
      · simp at h
      · rename_i dv hdev
        split at h
        · simp at h
        · split at h
          · simp at h
          · split at h
            · simp at h
            · split at h
              · simp at h
              · split at h
                · simp at h
                · split at h
                  · simp only [Except.ok.injEq, Prod.mk.injEq] at h
                    obtain ⟨h1, -, -⟩ := h
                    subst h1
                    exact ⟨ep, hg, hdev⟩
                  · simp at h

/-- C5: when the wipe command succeeded but the post-erase verification
read times out or fails, the verification result is `success = False`
with a descriptive error, while the erase operation and the persisted
phase keep their `completed` status — a verification failure never
downgrades a completed erase. -/
theorem C5_verification_failure_kept_separate (env : ExecEnv)
    (s : WorkflowState) (rE : PhaseRec) (device pathVal : Val)
    (cmdName method : String)
    (hplan : getPhaseStatus s "plan" = "completed")
    (hexec : Dict.get? s.phases "execute" = some rE)
    (hx : extractPlan (getPhaseData s "plan") =
      .ok (device, cmdName, method))
    (hpath : device.item "path" = .ok pathVal)
    (hok : (runWipeCommand cmdName env.outcome).success = true)
    (hvfail : env.vread2 = .timedOut ∨
      ∃ rc bs, env.vread2 = .done rc bs ∧ rc ≠ 0) :
    ∃ msg, verifyWipe "format" env.vread2 = .failure msg ∧ msg ≠ "" ∧
      executeWipe env (getPhaseData s "plan") =
        .ok ⟨⟨method, "completed", none⟩,
             (runWipeCommand cmdName env.outcome).output,
             (runWipeCommand cmdName env.outcome).error, env.time.dur⟩ ∧
      (runExecutePhase env s).tag = .finished ∧
      getPhaseStatus (runExecutePhase env s).state "execute" =
        "completed" ∧
      recordedOpField (runExecutePhase env s).state "status" =
        some (.s "completed") ∧
      recordedVerification (runExecutePhase env s).state =
        some (verifyResultVal (.failure msg)) := by
  have hvw : ∃ msg, verifyWipe "format" env.vread2 = .failure msg ∧
      msg ≠ "" := by
    rcases hvfail with hto | ⟨rc, bs, hdo, hrc⟩
    · exact ⟨"Verification timed out", by rw [hto]; rfl, by decide⟩
    · refine ⟨"Failed to read device for verification", ?_, by decide⟩
      rw [hdo]
      simp only [verifyWipe]
      rw [if_pos hrc]
  obtain ⟨msg, hmsg, hmne⟩ := hvw
  have hew : executeWipe env (getPhaseData s "plan") =
      .ok ⟨⟨method, "completed", none⟩,
           (runWipeCommand cmdName env.outcome).output,
           (runWipeCommand cmdName env.outcome).error, env.time.dur⟩ := by
    simp only [executeWipe, hx, hok, eq_self_iff_true, if_true, hpath]
  have hup1 := updatePhase_running env.now s rE hexec
  have hpd : getPhaseData (runningState env.now s rE) "plan" =
      getPhaseData s "plan" :=
    getPhaseData_runningState env.now s rE "plan" (by decide)
  obtain ⟨ep, hg, hdev⟩ := extractPlan_ok_inv _ _ _ _ hx
  have hrev : reverifyPath (getPhaseData s "plan") = .ok pathVal := by
    simp only [reverifyPath, hg, hdev, hpath]
  have hup2 := updatePhase_eq_ok env.now (runningState env.now s rE)
    "execute" "completed"
    (execResultsVal env.time
      ⟨⟨method, "completed", none⟩,
       (runWipeCommand cmdName env.outcome).output,
       (runWipeCommand cmdName env.outcome).error, env.time.dur⟩ ++
      [("verification", verifyResultVal (.failure msg))])
    ⟨"running", rE.data⟩ (get?_runningState_execute env.now s rE)
    (by simp [execResultsVal])
  have hrun : runExecutePhase env s =
      ⟨saveStamp env.now
        { runningState env.now s rE with phases :=
            (Dict.setKey (runningState env.now s rE).phases "execute"
              { status := "completed",
                data := Dict.update rE.data (execResultsVal env.time
                  ⟨⟨method, "completed", none⟩,
                   (runWipeCommand cmdName env.outcome).output,
                   (runWipeCommand cmdName env.outcome).error,
                   env.time.dur⟩ ++
                  [("verification", verifyResultVal (.failure msg))]) }) },
       .finished, true⟩ := by
    simp only [runExecutePhase, hplan, ne_eq, eq_self_iff_true, not_true,
      Bool.false_eq_true, if_false, if_true, hup1, hpd, hew, hrev, hmsg,
      hup2]
  have hnodup : (((execResultsVal env.time
      ⟨⟨method, "completed", none⟩,
       (runWipeCommand cmdName env.outcome).output,
       (runWipeCommand cmdName env.outcome).error, env.time.dur⟩ ++
      [("verification", verifyResultVal (.failure msg))] :
        Dict Val)).map Prod.fst).Nodup := by
    simp [execResultsVal]
  refine ⟨msg, hmsg, hmne, hew, ?_, ?_, ?_, ?_⟩
  · rw [hrun]
  · simp only [hrun]
    exact getPhaseStatus_setKey_self _ _ _ _
  · simp only [hrun, recordedOpField]
    rw [getPhaseData_setKey_self, Dict.get?_update _ _ _ hnodup]
    rfl
  · simp only [hrun, recordedVerification]
    rw [getPhaseData_setKey_self, Dict.get?_update _ _ _ hnodup]
    rfl

/-- The external world of the C5 scenario: the wipe command exits
cleanly, the verification read times out. -/
def c5Env : ExecEnv :=
  ⟨.exited 0 "ok" "", .timedOut, .timedOut, ⟨"t0", "t1", 5⟩, "n0"⟩

/-- C5 witness: the separation of erase success from verification
failure at a concrete run (clean exit, timed-out verification read). -/
theorem C5_witness :
    ∃ msg, verifyWipe "format" c5Env.vread2 = .failure msg ∧ msg ≠ "" ∧
      executeWipe c5Env (getPhaseData c1State "plan") =
        .ok ⟨⟨"secure_erase", "completed", none⟩,
             (runWipeCommand "sudo" c5Env.outcome).output,
             (runWipeCommand "sudo" c5Env.outcome).error,
             c5Env.time.dur⟩ ∧
      (runExecutePhase c5Env c1State).tag = .finished ∧
      getPhaseStatus (runExecutePhase c5Env c1State).state "execute" =
        "completed" ∧
      recordedOpField (runExecutePhase c5Env c1State).state "status" =
        some (.s "completed") ∧
      recordedVerification (runExecutePhase c5Env c1State).state =
        some (verifyResultVal (.failure msg)) :=
  C5_verification_failure_kept_separate c5Env c1State ⟨"pending", []⟩
    (.dict [("path", .s "/dev/nvme0n1")]) (.s "/dev/nvme0n1")
    "sudo" "secure_erase" rfl rfl rfl rfl rfl (Or.inl rfl)
